import Mathlib

/-!
Verification of the licensedcode `models` module (the License and Rule entity
model, the relevance/threshold computation and the corpus integrity checks of
`src/licensedcode/models.py`) against its natural-language specification.

The Python code is shallowly embedded: stateful methods become functions from
a record to an updated record, Python numbers become `Int`/`Nat` (the numeric
fields only ever hold integral values on the paths modelled here), fallible
code returns `Except`, and the external collaborators (the tokenizer, the
license-expression engine, the filesystem and path join) are explicit function
parameters. Python `dict`/`defaultdict` values become association lists kept
in insertion order, Python `set`s become duplicate-free lists in insertion
order.
-/

/-- Python truthiness of an optional string: `None` and the empty string are
falsy, every other string is truthy. -/
def truthyOpt : Option String → Bool
  | none => false
  | some s => s != ""

/-- The values of a truthy optional string, as a list (used where Python
appends a URL to a list only when it is truthy). -/
def optList : Option String → List String
  | none => []
  | some s => if s = "" then [] else [s]

/-- Append one value to the bucket of `k` in an association list of buckets,
creating the bucket if needed: the embedding of `defaultdict(list)` with
`[k].append(v)`.
Buckets are kept in insertion order. -/
def bput {α β : Type} [DecidableEq α] : List (α × List β) → α → β → List (α × List β)
  | [], k, v => [(k, [v])]
  | (k2, vs) :: rest, k, v =>
    if k2 = k then (k2, vs ++ [v]) :: rest else (k2, vs) :: bput rest k v

/-- Append a list of values to the bucket of `k`, in order. -/
def bputs {α β : Type} [DecidableEq α] (b : List (α × List β)) (k : α) (vs : List β) :
    List (α × List β) :=
  vs.foldl (fun b v => bput b k v) b

/-- Read the bucket of `k` (empty when absent). -/
def bget {α β : Type} [DecidableEq α] : List (α × List β) → α → List β
  | [], _ => []
  | (k2, vs) :: rest, k => if k2 = k then vs else bget rest k

/-- Insert into a Python-set modelled as a duplicate-free list in insertion
order: `s.add(x)`. -/
def setInsert (s : List String) (x : String) : List String :=
  if x ∈ s then s else s ++ [x]

/-- `s.update(xs)` on a Python set modelled as a duplicate-free list. -/
def setUnion (s : List String) (xs : List String) : List String :=
  xs.foldl setInsert s

/-- Lexicographic comparison of character lists by code point, as Python
compares strings. -/
def charListLe : List Char → List Char → Bool
  | [], _ => true
  | _ :: _, [] => false
  | c :: cs, d :: ds => if c = d then charListLe cs ds else decide (c < d)

/-- `a <= b` for strings, by code point, as in Python `sorted`. -/
def strLeb (a b : String) : Bool := charListLe a.data b.data

/-- Insert into a sorted list of strings. -/
def insertSorted (x : String) : List String → List String
  | [] => [x]
  | y :: ys => if strLeb x y then x :: y :: ys else y :: insertSorted x ys

/-- Python `sorted` on a list of strings (insertion sort; a stable sort by
code point). -/
def sortStr (l : List String) : List String := l.foldr insertSorted []

/-- The six characters stripped by Python `str.strip()` on ASCII text. -/
def pyIsSpace (c : Char) : Bool :=
  c = ' ' || c = '\t' || c = '\n' || c = '\r' || c = '\x0b' || c = '\x0c'

/-- Python `str.lstrip()` on a character list. -/
def lstrip (l : List Char) : List Char := l.dropWhile pyIsSpace

/-- Python `str.rstrip()` on a character list. -/
def rstrip : List Char → List Char
  | [] => []
  | c :: cs =>
    match rstrip cs with
    | [] => if pyIsSpace c then [] else [c]
    | r => c :: r

/-- Python `str.strip()` on a character list. -/
def pyStrip (l : List Char) : List Char := rstrip (lstrip l)

/-- Python `str.strip()` on a `String`. -/
def stripStr (s : String) : String := ⟨pyStrip s.data⟩

/-- Boolean check that the first argument is an initial segment of the
second (Python `str.startswith`). -/
def isPre : List Char → List Char → Bool
  | [], _ => true
  | _ :: _, [] => false
  | c :: cs, d :: ds => c = d && isPre cs ds

/-- The three URL schemes recognized by `Rule.tokens`
(`text.startswith(('http://', 'https://', 'ftp://'))`). -/
def startsWithScheme (l : List Char) : Bool :=
  isPre ['h', 't', 't', 'p', ':', '/', '/'] l ||
  isPre ['h', 't', 't', 'p', 's', ':', '/', '/'] l ||
  isPre ['f', 't', 'p', ':', '/', '/'] l

/-- The `Thresholds` namedtuple of models.py (lines 641-657). -/
structure Thresholds where
  high_len : Nat
  low_len : Nat
  length : Nat
  small : Bool
  min_high : Nat
  min_len : Nat
  deriving DecidableEq, Repr

/-- The `Rule` attrs class of models.py (lines 660-764): the data fields of a
detection rule. `rid` and the expression object are omitted (the former is
assigned by the external indexer, the latter lives in the external expression
engine; only the rendered string is kept). The two `_thresholds` caches are
`Option`-typed as in the source, where `None` means "not yet computed". -/
structure Rule where
  identifier : String := ""
  license_expression : Option String := none
  is_license_text : Bool := false
  is_license_notice : Bool := false
  is_license_reference : Bool := false
  is_license_tag : Bool := false
  is_false_positive : Bool := false
  is_negative : Bool := false
  minimum_coverage : Int := 0
  only_known_words : Bool := false
  relevance : Int := 100
  has_stored_relevance : Bool := false
  referenced_filenames : List String := []
  notes : Option String := none
  is_license : Bool := false
  data_file : String := ""
  text_file : String := ""
  stored_text : Option String := none
  length : Nat := 0
  high_length : Nat := 0
  low_length : Nat := 0
  _thresholds : Option Thresholds := none
  high_unique : Nat := 0
  low_unique : Nat := 0
  length_unique : Nat := 0
  _thresholds_unique : Option Thresholds := none
  deriving DecidableEq, Repr

/-- The `License` attrs class of models.py (lines 92-155): data fields only;
the backing files are external, so `data_file`/`text_file` are plain path
strings and the text is read through an explicit filesystem parameter. -/
structure License where
  key : String := ""
  src_dir : String := ""
  is_deprecated : Bool := false
  language : String := "en"
  short_name : Option String := none
  name : Option String := none
  category : Option String := none
  owner : Option String := none
  homepage_url : Option String := none
  notes : Option String := none
  is_exception : Bool := false
  spdx_license_key : Option String := none
  other_spdx_license_keys : List String := []
  text_urls : List String := []
  osi_url : Option String := none
  faq_url : Option String := none
  other_urls : List String := []
  key_aliases : List String := []
  minimum_coverage : Int := 0
  relevance : Int := 100
  standard_notice : Option String := none
  data_file : String := ""
  text_file : String := ""
  deriving DecidableEq, Repr

/-- `License._read_text` (models.py lines 286-292): a missing file reads as
the empty string. The filesystem is a map from path to file content,
`none` meaning the path does not exist. -/
def License._read_text (fs : String → Option String) (location : String) : String :=
  match fs location with
  | none => ""
  | some content => content

/-- The `License.text` property (models.py lines 207-212): the license text,
re-read from `text_file` on demand. -/
def License.text (fs : String → Option String) (lic : License) : String :=
  License._read_text fs lic.text_file

/-- `Rule.small` (models.py lines 869-874): `length < SMALL_RULE (= 15) or
minimum_coverage == 100`. -/
def Rule.small (r : Rule) : Bool :=
  decide (r.length < 15) || decide (r.minimum_coverage = 100)

/-- The `SpdxRule` subclass (models.py lines 1159-1200). Only the payload and
the overridden `small` are needed here; construction forces
`is_license_tag`, `has_stored_relevance` and `relevance = 100` through the
external expression engine. -/
structure SpdxRule where
  toRule : Rule := {}
  deriving DecidableEq, Repr

/-- `SpdxRule.small` (models.py lines 1199-1200): always `False`. -/
def SpdxRule.small (_s : SpdxRule) : Bool := false

/-- `Rule.compute_relevance` (models.py lines 1097-1143). The source computes
`relevance_of_one_word = round((1 / 18.0) * 100, 2) = 5.56` and then
`int(length * 5.56)`; on the only reachable lengths (`length < 18`) the float
product is never within one part in 10^13 of an integer, so the truncation
equals exact integer arithmetic `length * 556 / 100`. -/
def Rule.compute_relevance (r : Rule) : Rule :=
  if r.has_stored_relevance then r
  else if r.is_false_positive then { r with relevance := 100 }
  else if r.is_negative then { r with relevance := 100 }
  else if 18 ≤ r.length then { r with relevance := 100 }
  else { r with relevance := min 100 ((r.length : Int) * 556 / 100) }

/-- `Rule.thresholds` (models.py lines 876-914), for the occurrence counts of
all tokens. The two module constants `MIN_MATCH_HIGH_LENGTH` and
`MIN_MATCH_LENGTH` are imported from the `licensedcode` package (outside this
module), so they are taken as parameters here. The sequential overwrites of
`min_high`/`min_len`/`self.minimum_coverage` in the source are rendered as a
chain of rebindings in the same order; the computed tuple is cached in
`_thresholds` and `minimum_coverage` may be updated, so the updated rule is
returned alongside. -/
def Rule.thresholds (MIN_MATCH_HIGH_LENGTH MIN_MATCH_LENGTH : Nat) (r : Rule) :
    Thresholds × Rule :=
  match r._thresholds with
  | some t => (t, r)
  | none =>
    let length := r.length
    let high_length := r.high_length
    -- if length > 200 ... else ...
    let base : Nat × Nat :=
      if 200 < length then (high_length / 10, length / 10)
      else (min high_length MIN_MATCH_HIGH_LENGTH, MIN_MATCH_LENGTH)
    -- if self.length < 30: min_len = length // 2
    let s30 : Nat × Nat := if length < 30 then (base.1, length / 2) else base
    -- if self.length < 10: min_high, min_len, self.minimum_coverage = high_length, length, 80
    let s10 : (Nat × Nat) × Int :=
      if length < 10 then ((high_length, length), 80) else (s30, r.minimum_coverage)
    -- if self.length < 3: min_high, min_len, self.minimum_coverage = high_length, length, 100
    let s3 : (Nat × Nat) × Int :=
      if length < 3 then ((high_length, length), 100) else s10
    -- if self.minimum_coverage == 100: min_high, min_len = high_length, length
    let fin : Nat × Nat := if s3.2 = 100 then (high_length, length) else s3.1
    let r2 := { r with minimum_coverage := s3.2 }
    let t : Thresholds :=
      { high_len := high_length, low_len := r.low_length, length := length,
        small := Rule.small r2, min_high := fin.1, min_len := fin.2 }
    (t, { r2 with _thresholds := some t })

/-- `Rule.thresholds_unique` (models.py lines 916-956), for unique-token
occurrence counts; same parameterization as `Rule.thresholds`. This variant
never mutates `minimum_coverage`; only the cache field is set. -/
def Rule.thresholds_unique (MIN_MATCH_HIGH_LENGTH MIN_MATCH_LENGTH : Nat) (r : Rule) :
    Thresholds × Rule :=
  match r._thresholds_unique with
  | some t => (t, r)
  | none =>
    let length := r.length
    let high_unique := r.high_unique
    let length_unique := r.length_unique
    -- if length > 200 ... else: highu = (int(high_unique // 2)) or high_unique
    let base : Nat × Nat :=
      if 200 < length then (high_unique / 10, length / 10)
      else
        let highu := if high_unique / 2 = 0 then high_unique else high_unique / 2
        (min highu MIN_MATCH_HIGH_LENGTH, MIN_MATCH_LENGTH)
    -- if length < 20: min_high = high_unique; min_len = min_high
    let s20 : Nat × Nat := if length < 20 then (high_unique, high_unique) else base
    -- if length < 10: min_high = high_unique; min_len = length_unique - 1 (or length_unique if < 2)
    let s10 : Nat × Nat :=
      if length < 10 then
        (high_unique, if length_unique < 2 then length_unique else length_unique - 1)
      else s20
    -- if length < 5: min_high = high_unique; min_len = length_unique
    let s5 : Nat × Nat := if length < 5 then (high_unique, length_unique) else s10
    -- if self.minimum_coverage == 100: min_high, min_len = high_unique, length_unique
    let fin : Nat × Nat :=
      if r.minimum_coverage = 100 then (high_unique, length_unique) else s5
    let t : Thresholds :=
      { high_len := high_unique, low_len := r.low_unique, length := length_unique,
        small := Rule.small r, min_high := fin.1, min_len := fin.2 }
    (t, { r with _thresholds_unique := some t })

/-- `Rule.tokens` (models.py lines 804-827) modelled over the loaded rule
text (reading `self.text()` from the file is external I/O; the tokenizer is
the external `query_tokenizer`). The stripped text is tested for a bare URL
on a single line, which forces `minimum_coverage` to 100; the token count
then sets `length` and triggers `compute_relevance`, exactly in source
order. Returns the token list with the updated rule. -/
def Rule.tokens (tokenizer : List Char → List (List Char)) (r : Rule)
    (text : List Char) : List (List Char) × Rule :=
  let stripped := pyStrip text
  let r1 :=
    if startsWithScheme stripped && !(decide ('\n' ∈ stripped.take 1000)) then
      { r with minimum_coverage := 100 }
    else r
  let toks := tokenizer text
  let r2 := { r1 with length := toks.length }
  (toks, Rule.compute_relevance r2)

/-- `Rule.license_keys` (models.py lines 845-851): empty when the expression
is falsy (None or empty string), else delegated to the external expression
engine, modelled by `keysOf` from the rendered expression string. -/
def Rule.license_keys (keysOf : String → List String) (r : Rule) : List String :=
  match r.license_expression with
  | none => []
  | some e => if e = "" then [] else keysOf e

/-- The `Rule.has_importance_flags` property (models.py lines 1145-1156). -/
def Rule.has_importance_flags (r : Rule) : Bool :=
  r.is_license_text || r.is_license_notice || r.is_license_reference || r.is_license_tag

/-- A scalar parsed from the YAML value of `referenced_filenames`: either a
YAML list of strings or some other (non-list) value, so that the
`isinstance(..., list)` check of `Rule.load` can be stated. -/
inductive YVal where
  | vlist (xs : List String)
  | vstr (s : String)
  deriving DecidableEq, Repr

/-- The parsed content of a rule YAML data file, as handed to `Rule.load`
by the external YAML codec: each recognized field read with `data.get`, plus
the list of keys of the file that are not attributes of the Rule class
(the set difference computed on lines 1039-1041). Absent numeric fields are
`none`; boolean fields carry the `data.get(..., False)` default. -/
structure RuleData where
  unknown_attributes : List String := []
  license_expression : Option String := none
  is_negative : Bool := false
  is_false_positive : Bool := false
  relevance : Option Int := none
  minimum_coverage : Option Int := none
  is_license_text : Bool := false
  is_license_notice : Bool := false
  is_license_tag : Bool := false
  is_license_reference : Bool := false
  only_known_words : Bool := false
  referenced_filenames : Option YVal := none
  notes : Option String := none
  deriving DecidableEq, Repr

/-- `Rule.load` (models.py lines 1022-1095) applied to already-parsed YAML
`data` (the YAML codec itself is external; a parse failure aborts before any
of this runs). Checks happen in source order: unknown attributes, missing
license expression, stored relevance range, the (mis-aimed) minimum_coverage
range guard — which the source evaluates on `self.relevance`, not on
`self.minimum_coverage` (line 1068) — the `referenced_filenames` list-shape
check, and missing notes on negative/false-positive rules. Error values name
the failed check. -/
def Rule.load (data : RuleData) (r : Rule) : Except String Rule :=
  if data.unknown_attributes ≠ [] then
    .error "unknown attributes"
  else
    let r := { r with license_expression := data.license_expression,
                      is_negative := data.is_negative,
                      is_false_positive := data.is_false_positive }
    if truthyOpt r.license_expression = false ∧ ¬(r.is_negative ∨ r.is_false_positive) then
      .error "missing license_expression"
    else
      let step : Except String Rule :=
        match data.relevance with
        | some rel =>
          let r1 := { r with has_stored_relevance := true, relevance := rel }
          if ¬(0 < rel ∧ rel ≤ 100) then .error "invalid relevance"
          else .ok r1
        | none => .ok r
      match step with
      | .error e => .error e
      | .ok r =>
        let r := { r with minimum_coverage := data.minimum_coverage.getD 0 }
        -- source line 1068: the guard reads `self.relevance`, not minimum_coverage
        if ¬((0 : Int) ≤ r.relevance ∧ r.relevance ≤ (100 : Int)) then
          .error "invalid minimum_coverage"
        else
          let r := { r with is_license_text := data.is_license_text,
                            is_license_notice := data.is_license_notice,
                            is_license_tag := data.is_license_tag,
                            is_license_reference := data.is_license_reference,
                            only_known_words := data.only_known_words }
          -- data.get('referenced_filenames', []) or []   (falsy values collapse to [])
          let rf : YVal :=
            match data.referenced_filenames with
            | none => .vlist []
            | some (.vstr "") => .vlist []
            | some v => v
          match rf with
          | .vstr _ => .error "invalid referenced_filenames"
          | .vlist fns =>
            let r := { r with referenced_filenames := fns }
            let r :=
              match data.notes with
              | some n => if n ≠ "" then { r with notes := some (stripStr n) } else r
              | none => r
            if truthyOpt r.notes = false ∧ (r.is_negative ∨ r.is_false_positive) then
              .error "missing notes"
            else
              .ok r

/-- The part of `Rule.__attrs_post_init__` (models.py lines 766-802) that
runs for a rule constructed with a `text_file` and no `data_file` — the
`build_rules_from_licenses` case: the identifier is derived from the text
file name (external `file_name`), a relevance that is neither 0 (falsy) nor
100 marks `has_stored_relevance`, and a truthy license expression is parsed
and re-rendered by the external expression engine, modelled as the total
`render` (license keys are atomic expressions, which always parse). -/
def rulePostInit (file_name : String → String) (render : String → String) (r : Rule) : Rule :=
  let r1 := { r with identifier := file_name r.text_file }
  let r2 :=
    if r1.relevance ≠ 0 ∧ r1.relevance ≠ 100 then { r1 with has_stored_relevance := true }
    else r1
  match r2.license_expression with
  | none => r2
  | some e => if e = "" then r2 else { r2 with license_expression := some (render e) }

/-- `build_rules_from_licenses` (models.py lines 518-536): one Rule yielded
per license whose text file path (src_dir joined with the stored text_file
path, by the external `join`) exists on the filesystem `fs`. The `or`
defaults of the source are Python falsy-or on numbers: `minimum_coverage or
0` and `relevance or 100`, i.e. a zero value is replaced by the default. -/
def build_rules_from_licenses (join : String → String → String)
    (file_name : String → String) (render : String → String)
    (fs : String → Option String) (licenses : List (String × License)) : List Rule :=
  licenses.filterMap fun kl =>
    let license_obj := kl.2
    let text_file := join license_obj.src_dir license_obj.text_file
    let minimum_coverage : Int :=
      if license_obj.minimum_coverage = 0 then 0 else license_obj.minimum_coverage
    let has_stored_relevance := decide (license_obj.relevance ≠ 100)
    let relevance : Int :=
      if license_obj.relevance = 0 then 100 else license_obj.relevance
    if (fs text_file).isSome then
      some (rulePostInit file_name render
        { text_file := text_file, license_expression := some kl.1,
          minimum_coverage := minimum_coverage, relevance := relevance,
          has_stored_relevance := has_stored_relevance,
          is_license := true, is_license_text := true })
    else none

/-- The two exception classes raised by `check_rules_integrity` (models.py
lines 475-479), carried with structured payloads in place of the formatted
message strings the source builds from exactly these data: `MissingLicenses`
holds the `invalid_rules` mapping of rule data file to its set of unknown
keys (a `defaultdict(set)` in the source, here an association list of
duplicate-free key lists in insertion order); `MissingFlags` holds the
sorted rule data files lacking importance flags. -/
inductive IntegrityError where
  | MissingLicenses (invalid : List (String × List String))
  | MissingFlags (files : List String)
  deriving DecidableEq, Repr

/-- The `unknown_keys` list comprehension of `check_rules_integrity`
(models.py lines 492-493): the rule's license keys that are not in the
license map. -/
def ruleUnknownKeys (keysOf : String → List String) (licenses_by_key : List String)
    (r : Rule) : List String :=
  (Rule.license_keys keysOf r).filter (fun k => decide (k ∉ licenses_by_key))

/-- `invalid_rules[rule.data_file].update(unknown_keys)` on a
`defaultdict(set)` modelled as an association list of duplicate-free lists. -/
def updAssoc : List (String × List String) → String → List String → List (String × List String)
  | [], f, ks => [(f, setUnion [] ks)]
  | (g, s) :: rest, f, ks =>
    if g = f then (g, setUnion s ks) :: rest else (g, s) :: updAssoc rest f ks

/-- One iteration of the `for rule in rules` loop of `check_rules_integrity`
(models.py lines 491-498), accumulating `(invalid_rules, rules_without_flags)`. -/
def integrityStep (keysOf : String → List String) (licenses_by_key : List String)
    (acc : List (String × List String) × List String) (rule : Rule) :
    List (String × List String) × List String :=
  let unknown_keys := ruleUnknownKeys keysOf licenses_by_key rule
  let invalid := if unknown_keys = [] then acc.1 else updAssoc acc.1 rule.data_file unknown_keys
  let noflags :=
    if Rule.has_importance_flags rule = false
        ∧ rule.is_negative = false ∧ rule.is_false_positive = false then
      setInsert acc.2 rule.data_file
    else acc.2
  (invalid, noflags)

/-- `check_rules_integrity` (models.py lines 482-515): scan every rule,
collecting rules whose license keys are unknown and rules without importance
flags; after the full pass raise `MissingLicenses` if any unknown reference
was found, else `MissingFlags` if any rule lacks flags (the source sorts only
the formatted message lines of `MissingLicenses`; the structured payload
keeps the insertion order of the mapping, while `rules_without_flags` is
sorted as in the source). The external expression engine is `keysOf`. -/
def check_rules_integrity (keysOf : String → List String) (rules : List Rule)
    (licenses_by_key : List String) : Except IntegrityError Unit :=
  let acc := rules.foldl (integrityStep keysOf licenses_by_key) ([], [])
  if acc.1 ≠ [] then .error (.MissingLicenses acc.1)
  else if acc.2 ≠ [] then .error (.MissingFlags (sortStr acc.2))
  else .ok ()

/-- The validation messages appended by `License.validate` (models.py lines
303-431), one constructor per distinct message, carrying the data the source
interpolates into the message string. The duplicate short-name/name messages
carry a plain `String`: when the dict key is `None` the source never produces
a message — the concatenation itself raises `TypeError` (see `dupNamePass`). -/
inductive VMsg where
  | noShortName
  | noName
  | noCategory
  | unknownCategory (c : String)
  | noOwner
  | someEmptyTextUrls
  | someEmptyOtherUrls
  | homepageAlsoTextUrls
  | homepageAlsoOtherUrls
  | homepageSameFaq
  | homepageSameOsi
  | osiSameFaq
  | someDuplicatedUrls
  | noLicenseText
  | spdxUsedInMultiple (k : String) (lkeys : List String)
  | duplicateTexts (msgs : List String)
  | duplicateShortName (sn : String) (keys : List String)
  | duplicateName (n : String) (keys : List String)
  deriving DecidableEq, Repr

/-- The fixed closed category set `CATEGORIES` of models.py (lines 72-89):
the FOSS categories followed by the other categories. -/
def CATEGORIES : List String :=
  ["Copyleft", "Copyleft Limited", "Patent License", "Permissive", "Public Domain",
   "Commercial", "Free Restricted", "Proprietary Free", "Unstated License"]

/-- The error messages appended for one license by the per-license checks of
`License.validate` (models.py lines 332-341), in source order. All target
the bucket of the license's own key. -/
def localErrorMsgs (lic : License) : List VMsg :=
  (if truthyOpt lic.short_name then [] else [.noShortName])
  ++ (if truthyOpt lic.name then [] else [.noName])
  ++ (if truthyOpt lic.category then [] else [.noCategory])
  ++ (match lic.category with
      | some c => if c ≠ "" ∧ c ∉ CATEGORIES then [.unknownCategory c] else []
      | none => [])
  ++ (if truthyOpt lic.owner then [] else [.noOwner])

/-- The warning messages appended for one license by the `no_dupe_urls`
block of `License.validate` (models.py lines 344-372), in source order:
empty URL-list entries, homepage duplicated into other URL fields, osi/faq
equality, and any duplicate across all URL fields (Python
`len(all) == len(set(all))` is the `Nodup` check). -/
def localWarnMsgs (lic : License) : List VMsg :=
  (if lic.text_urls ≠ [] ∧ ¬ lic.text_urls.all (fun u => u != "") then
    [.someEmptyTextUrls] else [])
  ++ (if lic.other_urls ≠ [] ∧ ¬ lic.other_urls.all (fun u => u != "") then
    [.someEmptyOtherUrls] else [])
  ++ (match lic.homepage_url with
      | some h =>
        if h ≠ "" then
          (if h ∈ lic.text_urls then [.homepageAlsoTextUrls] else [])
          ++ (if h ∈ lic.other_urls then [.homepageAlsoOtherUrls] else [])
          ++ (if lic.faq_url = some h then [.homepageSameFaq] else [])
          ++ (if lic.osi_url = some h then [.homepageSameOsi] else [])
        else []
      | none => [])
  ++ (if (truthyOpt lic.osi_url || truthyOpt lic.faq_url) ∧ lic.osi_url = lic.faq_url then
    [.osiSameFaq] else [])
  ++ (if (lic.text_urls ++ lic.other_urls
          ++ optList lic.osi_url ++ optList lic.faq_url ++ optList lic.homepage_url).Nodup
      then [] else [.someDuplicatedUrls])

/-- The SPDX-key accumulation of `License.validate` (models.py lines
385-388): a truthy canonical SPDX key and every other SPDX key map back to
the license key. -/
def spdxPut (key : String) (lic : License) (b : List (String × List String)) :
    List (String × List String) :=
  let b1 :=
    match lic.spdx_license_key with
    | some k => if k ≠ "" then bput b k key else b
    | none => b
  lic.other_spdx_license_keys.foldl (fun b2 oslk => bput b2 oslk key) b1

/-- The loop state of `License.validate`: the three message maps and the
four global dedupe maps (models.py lines 315-323). The source stores License
objects in `by_short_name`/`by_name` but only ever reads their `key`, so the
keys are stored. -/
structure VState where
  errors : List (String × List VMsg) := []
  warnings : List (String × List VMsg) := []
  infos : List (String × List VMsg) := []
  by_spdx_key : List (String × List String) := []
  by_text : List (List String × List String) := []
  by_short_name : List (Option String × List String) := []
  by_name : List (Option String × List String) := []

/-- One iteration of the `for key, lic in licenses.items()` loop of
`License.validate` (models.py lines 325-388). The appends of a single
iteration go to per-key buckets; grouping them by target map preserves the
per-bucket order of the source. A license whose normalized token sequence is
empty gets the `No license text` info note; otherwise its key (tagged
`: TEXT`) is recorded under its token sequence for the global text dedupe. -/
def vstep (tokenize : String → List String) (fs : String → Option String)
    (no_dupe_urls : Bool) (st : VState) (kl : String × License) : VState :=
  let key := kl.1
  let lic := kl.2
  let qtokens := tokenize (License.text fs lic)
  { errors := bputs st.errors key (localErrorMsgs lic),
    warnings := if no_dupe_urls then bputs st.warnings key (localWarnMsgs lic) else st.warnings,
    infos := if qtokens = [] then bput st.infos key VMsg.noLicenseText else st.infos,
    by_spdx_key := spdxPut key lic st.by_spdx_key,
    by_text := if qtokens = [] then st.by_text else bput st.by_text qtokens (key ++ ": TEXT"),
    by_short_name := bput st.by_short_name lic.short_name key,
    by_name := bput st.by_name lic.name key }

/-- The duplicate short-name pass (models.py lines 402-406) and, reused with
the other message constructor, the duplicate name pass (lines 408-412) of
`License.validate`: buckets of size one are skipped; a larger bucket appends
one GLOBAL message built by string-concatenating the bucket's dict key into
the message text — which raises `TypeError` when that key is `None` (two or
more licenses with the field missing), aborting validate. The bucket's
license keys are joined in insertion order, unsorted, as in the source. -/
def dupNamePass (mk : String → List String → VMsg) :
    List (Option String × List String) → List (String × List VMsg) →
    Except String (List (String × List VMsg))
  | [], es => .ok es
  | p :: rest, es =>
    if p.2.length = 1 then dupNamePass mk rest es
    else
      match p.1 with
      | none => .error "TypeError: cannot concatenate str and NoneType objects"
      | some nm => dupNamePass mk rest (bput es "GLOBAL" (mk nm p.2))

/-- The global passes of `License.validate` after the license loop
(models.py lines 390-416): SPDX keys used by several licenses, duplicate
texts, duplicate short names and names — each bucket of size above one adds
one GLOBAL error — followed by dropping the empty buckets of each of the
three maps. Returns `(errors, warnings, infos)` as the source does, unless
a short-name or name bucket is keyed by `None` with two or more licenses in
it, in which case the message concatenation raises `TypeError` (see
`dupNamePass`) and the whole validation aborts. -/
def vpost (st : VState) :
    Except String
      (List (String × List VMsg) × List (String × List VMsg) × List (String × List VMsg)) :=
  let errs1 := st.by_spdx_key.foldl
    (fun es p =>
      if 1 < p.2.length then bput es "GLOBAL" (VMsg.spdxUsedInMultiple p.1 (sortStr p.2))
      else es)
    st.errors
  let errs2 := st.by_text.foldl
    (fun es p =>
      if 1 < p.2.length then bput es "GLOBAL" (VMsg.duplicateTexts (sortStr p.2))
      else es)
    errs1
  match dupNamePass VMsg.duplicateShortName st.by_short_name errs2 with
  | .error e => .error e
  | .ok errs3 =>
    match dupNamePass VMsg.duplicateName st.by_name errs3 with
    | .error e => .error e
    | .ok errs4 =>
      .ok (errs4.filter (fun p => decide (p.2 ≠ [])),
        st.warnings.filter (fun p => decide (p.2 ≠ [])),
        st.infos.filter (fun p => decide (p.2 ≠ [])))

/-- `License.validate` (models.py lines 303-431): the whole-corpus batch
check, returning the `(errors, warnings, infos)` maps. It holds no `raise`
statement of its own, but the global name-dedupe passes can raise
`TypeError` by concatenating a `None` dict key into a message (models.py
lines 406 and 412), modelled by the `Except.error` result. The tokenizer and
the filesystem backing `lic.text` are external parameters; `verbose`
printing is I/O and is not modelled. -/
def License.validate (tokenize : String → List String) (fs : String → Option String)
    (no_dupe_urls : Bool) (licenses : List (String × License)) :
    Except String
      (List (String × List VMsg) × List (String × List VMsg) × List (String × List VMsg)) :=
  vpost (licenses.foldl (vstep tokenize fs no_dupe_urls) {})

-- ------------------------------------------------------------------
-- Theorems
-- ------------------------------------------------------------------

theorem relevance_formula (n : Nat) (h : n < 18) :
    min 100 ((n : Int) * 556 / 100) = min 100 ((n : Int) * 100 / 18) := by
  interval_cases n <;> rfl

theorem relevance_le_100 (n : Nat) :
    (if 18 ≤ n then (100 : Int) else min 100 ((n : Int) * 556 / 100)) ≤ 100 := by
  split
  · exact le_refl _
  · exact min_le_left _ _

theorem relevance_mono (n m : Nat) (h : n ≤ m) :
    (if 18 ≤ n then (100 : Int) else min 100 ((n : Int) * 556 / 100)) ≤
      (if 18 ≤ m then (100 : Int) else min 100 ((m : Int) * 556 / 100)) := by
  by_cases hm : 18 ≤ m
  · simp only [hm, if_true]
    exact relevance_le_100 n
  · have hn : ¬ 18 ≤ n := fun hc => hm (le_trans hc h)
    simp only [hm, hn, if_false]
    refine min_le_min (le_refl _) ?_
    refine Int.ediv_le_ediv (by norm_num) ?_
    exact mul_le_mul_of_nonneg_right (by exact_mod_cast h) (by norm_num)

/-- C1: for a Rule with `has_stored_relevance = False` that is neither a
false positive nor a negative rule, `compute_relevance` sets the relevance to
100 when `length >= 18` and to `min(100, floor(length * 100 / 18))` when
`length < 18`, and the computed relevance is monotonic non-decreasing in
`length`. -/
theorem C1_compute_relevance (r : Rule)
    (h1 : r.has_stored_relevance = false)
    (h2 : r.is_false_positive = false)
    (h3 : r.is_negative = false) :
    (r.compute_relevance.relevance =
      if 18 ≤ r.length then (100 : Int) else min 100 ((r.length : Int) * 100 / 18))
    ∧ (∀ r2 : Rule, r2.has_stored_relevance = false → r2.is_false_positive = false →
        r2.is_negative = false → r.length ≤ r2.length →
        r.compute_relevance.relevance ≤ r2.compute_relevance.relevance) := by
  constructor
  · simp only [Rule.compute_relevance, h1, h2, h3, Bool.false_eq_true, if_false]
    split
    · rfl
    · next h => exact relevance_formula r.length (Nat.lt_of_not_le h)
  · intro r2 g1 g2 g3 hle
    simp only [Rule.compute_relevance, h1, h2, h3, g1, g2, g3, Bool.false_eq_true, if_false,
      apply_ite Rule.relevance]
    exact relevance_mono r.length r2.length hle

/-- C1 witness: the theorem applied at a concrete rule of length 5. -/
theorem C1_compute_relevance_witness :
    (({ length := 5 } : Rule)).compute_relevance.relevance =
      (if 18 ≤ (({ length := 5 } : Rule)).length then (100 : Int)
       else min 100 (((({ length := 5 } : Rule)).length : Int) * 100 / 18)) :=
  (C1_compute_relevance { length := 5 } rfl rfl rfl).1

/-- C3: for a Rule with `has_stored_relevance = False` where
`is_false_positive` or `is_negative` holds, `compute_relevance` sets the
relevance to 100 regardless of the rule's length. -/
theorem C3_special_rules_full_relevance (r : Rule)
    (h1 : r.has_stored_relevance = false)
    (h2 : r.is_false_positive = true ∨ r.is_negative = true) :
    r.compute_relevance.relevance = 100 := by
  rcases h2 with h | h
  · simp [Rule.compute_relevance, h1, h]
  · by_cases hfp : r.is_false_positive <;>
      simp [Rule.compute_relevance, h1, h, hfp]

/-- C3 witness: a negative rule of length 1000 still gets relevance 100. -/
theorem C3_special_rules_full_relevance_witness :
    (({ is_negative := true, length := 1000 } : Rule)).compute_relevance.relevance = 100 :=
  C3_special_rules_full_relevance { is_negative := true, length := 1000 } rfl (Or.inr rfl)

/-- C6: `Rule.small` is true iff `length < 15` or `minimum_coverage == 100`;
`SpdxRule.small` is always false. -/
theorem C6_small (r : Rule) (s : SpdxRule) :
    (Rule.small r = true ↔ (r.length < 15 ∨ r.minimum_coverage = 100))
    ∧ SpdxRule.small s = false := by
  constructor
  · simp [Rule.small]
  · rfl

/-- C10: accessing `License.text` when the backing text file does not exist
returns the empty string rather than raising. -/
theorem C10_text_missing_file (fs : String → Option String) (lic : License)
    (h : fs lic.text_file = none) :
    License.text fs lic = "" := by
  simp [License.text, License._read_text, h]

/-- C10 witness: the empty filesystem and a default license. -/
theorem C10_text_missing_file_witness :
    License.text (fun _ => none) ({} : License) = "" :=
  C10_text_missing_file (fun _ => none) {} rfl

theorem rstrip_cons_of_nonspace (d : Char) (t : List Char) (hd : pyIsSpace d = false) :
    rstrip (d :: t) = d :: rstrip t := by
  cases h : rstrip t with
  | nil => simp [rstrip, h, hd]
  | cons a l => simp [rstrip, h]

theorem rstrip_append (l r : List Char) :
    rstrip (l ++ r) = if rstrip r = [] then rstrip l else l ++ rstrip r := by
  induction l with
  | nil =>
    simp only [List.nil_append]
    split
    · next h => simpa [rstrip] using h
    · rfl
  | cons c cs ih =>
    by_cases hr : rstrip r = []
    · simp only [hr, if_true] at ih ⊢
      simp [rstrip, ih]
    · simp only [hr, if_false] at ih ⊢
      have hne : cs ++ rstrip r ≠ [] := by
        intro hc
        exact hr (List.append_eq_nil.mp hc).2
      cases e : cs ++ rstrip r with
      | nil => exact absurd e hne
      | cons a as => simp [rstrip, ih, e]

theorem rstrip_take (l : List Char) : ∃ n, rstrip l = l.take n := by
  induction l with
  | nil => exact ⟨0, rfl⟩
  | cons c cs ih =>
    obtain ⟨n, hn⟩ := ih
    cases h : rstrip cs with
    | nil =>
      by_cases hc : pyIsSpace c
      · exact ⟨0, by simp [rstrip, h, hc]⟩
      · exact ⟨1, by simp [rstrip, h, hc]⟩
    | cons a t =>
      refine ⟨n + 1, ?_⟩
      have h1 : rstrip (c :: cs) = c :: rstrip cs := by simp [rstrip, h]
      rw [h1, hn, List.take_succ_cons]

theorem isPre_append (p t : List Char) : isPre p (p ++ t) = true := by
  induction p <;> simp [isPre, *]

theorem isPre_eq_append (p l : List Char) (h : isPre p l = true) : ∃ t, l = p ++ t := by
  induction p generalizing l with
  | nil => exact ⟨l, rfl⟩
  | cons c cs ih =>
    cases l with
    | nil => simp [isPre] at h
    | cons d ds =>
      simp only [isPre, Bool.and_eq_true, decide_eq_true_eq] at h
      obtain ⟨t, ht⟩ := ih ds h.2
      exact ⟨t, by simp [h.1, ht]⟩

theorem pyStrip_cons_append (c : Char) (mid : List Char) (d : Char) (t : List Char)
    (hc : pyIsSpace c = false) (hd : pyIsSpace d = false) :
    pyStrip (c :: (mid ++ d :: t)) = c :: (mid ++ d :: rstrip t) := by
  have hl : lstrip (c :: (mid ++ d :: t)) = c :: (mid ++ d :: t) := by
    simp [lstrip, List.dropWhile_cons, hc]
  have h1 : rstrip (d :: t) = d :: rstrip t := rstrip_cons_of_nonspace d t hd
  have h2 : rstrip ((c :: mid) ++ (d :: t)) = (c :: mid) ++ rstrip (d :: t) := by
    rw [rstrip_append]
    simp [h1]
  unfold pyStrip
  rw [hl]
  simpa [h1] using h2

theorem take_len_add (l1 l2 : List Char) (n : Nat) :
    (l1 ++ l2).take (l1.length + n) = l1 ++ l2.take n := by
  induction l1 with
  | nil => simp
  | cons a as ih =>
    have : (a :: as).length + n = (as.length + n) + 1 := by
      simp [Nat.succ_add]
    rw [this]
    simp [List.take_succ_cons, ih]

theorem mem_take_mono {a : Char} {l : List Char} {i j : Nat} (hij : i ≤ j)
    (h : a ∈ l.take i) : a ∈ l.take j := by
  have he : l.take i = (l.take j).take i := by
    rw [List.take_take, Nat.min_eq_left hij]
  rw [he] at h
  exact List.take_subset _ _ h

theorem isPre_pyStrip (c : Char) (mid : List Char) (d : Char) (l : List Char)
    (hc : pyIsSpace c = false) (hd : pyIsSpace d = false)
    (h : isPre (c :: mid ++ [d]) l = true) :
    isPre (c :: mid ++ [d]) (pyStrip l) = true ∧ ∃ m, pyStrip l = l.take m := by
  obtain ⟨t, ht⟩ := isPre_eq_append _ l h
  have hshape : l = c :: (mid ++ d :: t) := by simp [ht]
  obtain ⟨n, hn⟩ := rstrip_take t
  have hstrip : pyStrip l = c :: (mid ++ d :: rstrip t) := by
    rw [hshape]
    exact pyStrip_cons_append c mid d t hc hd
  constructor
  · have : (c :: mid ++ [d]) ++ rstrip t = c :: (mid ++ d :: rstrip t) := by simp
    rw [hstrip, ← this]
    exact isPre_append _ _
  · refine ⟨(c :: mid ++ [d]).length + n, ?_⟩
    have h2 : l.take ((c :: mid ++ [d]).length + n) = (c :: mid ++ [d]) ++ t.take n := by
      conv in l.take _ => rw [hshape]
      have : (c :: (mid ++ d :: t)) = (c :: mid ++ [d]) ++ t := by simp
      rw [this, take_len_add]
    rw [h2, hstrip, hn]
    simp

theorem compute_relevance_minimum_coverage (r : Rule) :
    (r.compute_relevance).minimum_coverage = r.minimum_coverage := by
  unfold Rule.compute_relevance
  split_ifs <;> rfl

theorem startsWithScheme_pyStrip (text : List Char) (hs : startsWithScheme text = true) :
    startsWithScheme (pyStrip text) = true ∧ ∃ m, pyStrip text = text.take m := by
  simp only [startsWithScheme, Bool.or_eq_true] at hs ⊢
  rcases hs with (h | h) | h
  · have := isPre_pyStrip 'h' ['t', 't', 'p', ':', '/'] '/' text (by decide) (by decide) h
    exact ⟨Or.inl (Or.inl this.1), this.2⟩
  · have := isPre_pyStrip 'h' ['t', 't', 'p', 's', ':', '/'] '/' text (by decide) (by decide) h
    exact ⟨Or.inl (Or.inr this.1), this.2⟩
  · have := isPre_pyStrip 'f' ['t', 'p', ':', '/'] '/' text (by decide) (by decide) h
    exact ⟨Or.inr this.1, this.2⟩

/-- C5: when a rule's text is a single line starting with an http://,
https:// or ftp:// scheme (no newline within the first 1000 characters),
running `tokens()` leaves the rule with `minimum_coverage = 100`. -/
theorem C5_url_rule_full_coverage (tokenizer : List Char → List (List Char))
    (r : Rule) (text : List Char)
    (hs : startsWithScheme text = true)
    (hn : ('\n' : Char) ∉ text.take 1000) :
    ((Rule.tokens tokenizer r text).2).minimum_coverage = 100 := by
  obtain ⟨hsS, m, hm⟩ := startsWithScheme_pyStrip text hs
  have hnot : ('\n' : Char) ∉ (pyStrip text).take 1000 := by
    rw [hm, List.take_take]
    intro hmem
    exact hn (mem_take_mono (Nat.min_le_left 1000 m) hmem)
  simp only [Rule.tokens]
  rw [compute_relevance_minimum_coverage]
  simp [hsS, hnot]

/-- C5 witness: the single-line text http://x with an arbitrary tokenizer. -/
theorem C5_url_rule_full_coverage_witness :
    ((Rule.tokens (fun _ => []) ({} : Rule)
        ['h', 't', 't', 'p', ':', '/', '/', 'x']).2).minimum_coverage = 100 :=
  C5_url_rule_full_coverage (fun _ => []) {} ['h', 't', 't', 'p', ':', '/', '/', 'x']
    (by decide) (by decide)

/-- C2: a Rule whose `minimum_coverage` is 100 when `thresholds()` is first
computed gets `min_high = high_length` and `min_len = length`, and a Rule
whose `minimum_coverage` is 100 when `thresholds_unique()` is first computed
gets `min_high = high_unique` and `min_len = length_unique`, for any values
of the two external floor constants. -/
theorem C2_full_coverage_thresholds (MMHL MML : Nat) (r r2 : Rule)
    (h1 : r._thresholds = none) (h2 : r.minimum_coverage = 100)
    (h3 : r2._thresholds_unique = none) (h4 : r2.minimum_coverage = 100) :
    ((Rule.thresholds MMHL MML r).1.min_high = r.high_length
      ∧ (Rule.thresholds MMHL MML r).1.min_len = r.length)
    ∧ ((Rule.thresholds_unique MMHL MML r2).1.min_high = r2.high_unique
      ∧ (Rule.thresholds_unique MMHL MML r2).1.min_len = r2.length_unique) := by
  constructor
  · unfold Rule.thresholds
    rw [h1]
    simp only [h2]
    split_ifs <;> simp_all
  · unfold Rule.thresholds_unique
    rw [h3]
    simp only [h4]
    split_ifs <;> simp_all

/-- C2 witness: concrete rules with full coverage, floors 3 and 4. -/
theorem C2_full_coverage_thresholds_witness :
    ((Rule.thresholds 3 4
        ({ minimum_coverage := 100, length := 50, high_length := 20 } : Rule)).1.min_high
        = ({ minimum_coverage := 100, length := 50, high_length := 20 } : Rule).high_length
      ∧ (Rule.thresholds 3 4
        ({ minimum_coverage := 100, length := 50, high_length := 20 } : Rule)).1.min_len
        = ({ minimum_coverage := 100, length := 50, high_length := 20 } : Rule).length)
    ∧ ((Rule.thresholds_unique 3 4
        ({ minimum_coverage := 100, length := 50, high_unique := 7, length_unique := 30 } : Rule)).1.min_high
        = ({ minimum_coverage := 100, length := 50, high_unique := 7, length_unique := 30 } : Rule).high_unique
      ∧ (Rule.thresholds_unique 3 4
        ({ minimum_coverage := 100, length := 50, high_unique := 7, length_unique := 30 } : Rule)).1.min_len
        = ({ minimum_coverage := 100, length := 50, high_unique := 7, length_unique := 30 } : Rule).length_unique) :=
  C2_full_coverage_thresholds 3 4
    { minimum_coverage := 100, length := 50, high_length := 20 }
    { minimum_coverage := 100, length := 50, high_unique := 7, length_unique := 30 }
    rfl rfl rfl rfl

/-- C7 evidence: `Rule.load` on a data file with `minimum_coverage: 150`
(outside 0..100) and an otherwise valid record SUCCEEDS, returning the rule
with `minimum_coverage = 150` — because the range guard on source line 1068
tests `self.relevance` (which is always in range at that point) instead of
`self.minimum_coverage`, contradicting the guard's own error message
("invalid minimum_coverage. Should be between 0 and 100"). -/
theorem C7_load_accepts_out_of_range_minimum_coverage :
    Rule.load
        ({ minimum_coverage := some 150, license_expression := some "mit" } : RuleData)
        ({} : Rule)
      = Except.ok
          ({ license_expression := some "mit", minimum_coverage := 150 } : Rule) := by
  rfl

theorem rulePostInit_fields (fn rd : String → String) (r : Rule) :
    (rulePostInit fn rd r).minimum_coverage = r.minimum_coverage
    ∧ (rulePostInit fn rd r).relevance = r.relevance
    ∧ (rulePostInit fn rd r).is_license = r.is_license
    ∧ (rulePostInit fn rd r).is_license_text = r.is_license_text := by
  by_cases hc : (r.relevance ≠ 0 ∧ r.relevance ≠ 100) <;>
    rcases hle : r.license_expression with _ | e
  · simp [rulePostInit, hc, hle]
  · by_cases he : e = "" <;> simp [rulePostInit, hc, hle, he]
  · simp [rulePostInit, hc, hle]
  · by_cases he : e = "" <;> simp [rulePostInit, hc, he, hle]

/-- C8 (amended): `build_rules_from_licenses` yields exactly one Rule per
License whose text file EXISTS (even when its content is empty); each
yielded Rule has `is_license` and `is_license_text` true; and for every
license with an existing text file there is a yielded Rule carrying the
License's `minimum_coverage` and carrying the License's `relevance` unless
that relevance is 0 (Python-falsy), in which case the Rule's relevance is
100. -/
theorem C8_build_rules_from_licenses (join : String → String → String)
    (fnm rend : String → String) (fs : String → Option String)
    (licenses : List (String × License)) :
    ((build_rules_from_licenses join fnm rend fs licenses).length
        = (licenses.filter (fun kl => (fs (join kl.2.src_dir kl.2.text_file)).isSome)).length)
    ∧ (∀ ru ∈ build_rules_from_licenses join fnm rend fs licenses,
        ru.is_license = true ∧ ru.is_license_text = true)
    ∧ (∀ kl ∈ licenses, (fs (join kl.2.src_dir kl.2.text_file)).isSome →
        ∃ ru ∈ build_rules_from_licenses join fnm rend fs licenses,
          ru.minimum_coverage = kl.2.minimum_coverage
          ∧ ru.relevance = (if kl.2.relevance = 0 then 100 else kl.2.relevance)
          ∧ ru.is_license = true ∧ ru.is_license_text = true) := by
  refine ⟨?_, ?_, ?_⟩
  · induction licenses with
    | nil => rfl
    | cons kl rest ih =>
      by_cases h : (fs (join kl.2.src_dir kl.2.text_file)).isSome <;>
        simp [build_rules_from_licenses, List.filter_cons, h] <;>
        simpa [build_rules_from_licenses] using ih
  · intro ru hru
    rw [build_rules_from_licenses, List.mem_filterMap] at hru
    obtain ⟨kl, _, hf⟩ := hru
    by_cases h : (fs (join kl.2.src_dir kl.2.text_file)).isSome
    · simp only [h, if_true, Option.some.injEq] at hf
      have hfields := rulePostInit_fields fnm rend
        { text_file := join kl.2.src_dir kl.2.text_file,
          license_expression := some kl.1,
          minimum_coverage :=
            if kl.2.minimum_coverage = 0 then 0 else kl.2.minimum_coverage,
          relevance := if kl.2.relevance = 0 then 100 else kl.2.relevance,
          has_stored_relevance := decide (kl.2.relevance ≠ 100),
          is_license := true, is_license_text := true }
      rw [← hf]
      exact ⟨hfields.2.2.1, hfields.2.2.2⟩
    · simp [h] at hf
  · intro kl hkl h
    refine ⟨rulePostInit fnm rend
      { text_file := join kl.2.src_dir kl.2.text_file,
        license_expression := some kl.1,
        minimum_coverage :=
          if kl.2.minimum_coverage = 0 then 0 else kl.2.minimum_coverage,
        relevance := if kl.2.relevance = 0 then 100 else kl.2.relevance,
        has_stored_relevance := decide (kl.2.relevance ≠ 100),
        is_license := true, is_license_text := true }, ?_, ?_⟩
    · rw [build_rules_from_licenses, List.mem_filterMap]
      exact ⟨kl, hkl, by simp [h]⟩
    · have hfields := rulePostInit_fields fnm rend
        { text_file := join kl.2.src_dir kl.2.text_file,
          license_expression := some kl.1,
          minimum_coverage :=
            if kl.2.minimum_coverage = 0 then 0 else kl.2.minimum_coverage,
          relevance := if kl.2.relevance = 0 then 100 else kl.2.relevance,
          has_stored_relevance := decide (kl.2.relevance ≠ 100),
          is_license := true, is_license_text := true }
      refine ⟨?_, ?_, hfields.2.2.1, hfields.2.2.2⟩
      · rw [hfields.1]
        split <;> simp_all
      · rw [hfields.2.1]

/-- C8 counterexample to the claim as stated: a single license whose text
file exists with EMPTY content and whose relevance is 0. The claim predicts
no yielded rule (no non-empty text file) carrying relevance 0; the code
yields exactly one rule and its relevance is 100. -/
theorem C8_build_rules_counterexample :
    ((build_rules_from_licenses (fun a b => a ++ "/" ++ b) (fun p => p) (fun e => e)
        (fun p => if p = "d/l0.LICENSE" then some "" else none)
        [("l0", { key := "l0", src_dir := "d", text_file := "l0.LICENSE",
                  relevance := 0 })]).length = 1)
    ∧ ((build_rules_from_licenses (fun a b => a ++ "/" ++ b) (fun p => p) (fun e => e)
        (fun p => if p = "d/l0.LICENSE" then some "" else none)
        [("l0", { key := "l0", src_dir := "d", text_file := "l0.LICENSE",
                  relevance := 0 })]).map Rule.relevance = [100])
    ∧ ((fun p => if p = "d/l0.LICENSE" then some "" else none)
        ((fun a b => a ++ "/" ++ b) "d" "l0.LICENSE") = some "") := by
  refine ⟨rfl, rfl, rfl⟩

/-- C8 witness: the amended theorem applied at the counterexample corpus. -/
theorem C8_build_rules_from_licenses_witness :
    (build_rules_from_licenses (fun a b => a ++ "/" ++ b) (fun p => p) (fun e => e)
        (fun p => if p = "d/l0.LICENSE" then some "" else none)
        [("l0", { key := "l0", src_dir := "d", text_file := "l0.LICENSE",
                  relevance := 0 })]).length
      = ([("l0", ({ key := "l0", src_dir := "d", text_file := "l0.LICENSE",
                      relevance := 0 } : License))].filter
          (fun kl => ((fun p => if p = "d/l0.LICENSE" then some "" else none)
            ((fun a b => a ++ "/" ++ b) kl.2.src_dir kl.2.text_file)).isSome)).length :=
  (C8_build_rules_from_licenses (fun a b => a ++ "/" ++ b) (fun p => p) (fun e => e)
    (fun p => if p = "d/l0.LICENSE" then some "" else none)
    [("l0", { key := "l0", src_dir := "d", text_file := "l0.LICENSE",
              relevance := 0 })]).1

theorem mem_setInsert (s : List String) (x y : String) :
    y ∈ setInsert s x ↔ y = x ∨ y ∈ s := by
  unfold setInsert
  split
  · next h => constructor
              · exact Or.inr
              · rintro (rfl | hy)
                · exact h
                · exact hy
  · simp [or_comm]

theorem mem_setUnion_left (s xs : List String) (k : String) (h : k ∈ s) :
    k ∈ setUnion s xs := by
  induction xs generalizing s with
  | nil => simpa [setUnion] using h
  | cons a as ih => exact ih (setInsert s a) ((mem_setInsert _ _ _).mpr (Or.inr h))

theorem mem_setUnion_right (s xs : List String) (k : String) (h : k ∈ xs) :
    k ∈ setUnion s xs := by
  induction xs generalizing s with
  | nil => cases h
  | cons a as ih =>
    rcases List.mem_cons.mp h with rfl | h2
    · exact mem_setUnion_left (setInsert s k) as k ((mem_setInsert s k k).mpr (Or.inl rfl))
    · exact ih (setInsert s a) h2

theorem updAssoc_ne_nil (a : List (String × List String)) (f : String) (ks : List String) :
    updAssoc a f ks ≠ [] := by
  cases a with
  | nil => simp [updAssoc]
  | cons p rest =>
    obtain ⟨g, s⟩ := p
    unfold updAssoc
    split <;> simp

theorem updAssoc_self (a : List (String × List String)) (f : String) (ks : List String)
    (k : String) (hk : k ∈ ks) :
    ∃ s2, (f, s2) ∈ updAssoc a f ks ∧ k ∈ s2 := by
  induction a with
  | nil => exact ⟨setUnion [] ks, List.mem_singleton.mpr rfl, mem_setUnion_right _ _ _ hk⟩
  | cons p rest ih =>
    obtain ⟨g, s⟩ := p
    unfold updAssoc
    split
    · next h =>
      subst h
      exact ⟨setUnion s ks, List.mem_cons_self _ _, mem_setUnion_right _ _ _ hk⟩
    · obtain ⟨s2, hmem, hks⟩ := ih
      exact ⟨s2, List.mem_cons_of_mem _ hmem, hks⟩

theorem updAssoc_preserve (a : List (String × List String)) (f : String) (ks : List String)
    (g : String) (s : List String) (k : String) (h : (g, s) ∈ a) (hk : k ∈ s) :
    ∃ s2, (g, s2) ∈ updAssoc a f ks ∧ k ∈ s2 := by
  induction a with
  | nil => cases h
  | cons p rest ih =>
    obtain ⟨g1, s1⟩ := p
    rcases List.mem_cons.mp h with he | ht
    · injection he with he1 he2
      subst he1; subst he2
      unfold updAssoc
      split
      · exact ⟨setUnion s ks, List.mem_cons_self _ _, mem_setUnion_left _ _ _ hk⟩
      · exact ⟨s, List.mem_cons_self _ _, hk⟩
    · unfold updAssoc
      split
      · exact ⟨s, List.mem_cons_of_mem _ ht, hk⟩
      · obtain ⟨s2, hmem, hks⟩ := ih ht
        exact ⟨s2, List.mem_cons_of_mem _ hmem, hks⟩

theorem integrityStep_preserve (keysOf : String → List String) (lbk : List String)
    (acc : List (String × List String) × List String) (r : Rule)
    (g : String) (s : List String) (k : String) (h : (g, s) ∈ acc.1) (hk : k ∈ s) :
    ∃ s2, (g, s2) ∈ (integrityStep keysOf lbk acc r).1 ∧ k ∈ s2 := by
  simp only [integrityStep]
  split
  · exact ⟨s, h, hk⟩
  · exact updAssoc_preserve acc.1 r.data_file _ g s k h hk

theorem integrityStep_self (keysOf : String → List String) (lbk : List String)
    (acc : List (String × List String) × List String) (r : Rule)
    (k : String) (hk : k ∈ ruleUnknownKeys keysOf lbk r) :
    ∃ s2, (r.data_file, s2) ∈ (integrityStep keysOf lbk acc r).1 ∧ k ∈ s2 := by
  simp only [integrityStep]
  split
  · next h => rw [h] at hk; cases hk
  · exact updAssoc_self acc.1 r.data_file _ k hk

theorem integrityStep_flags_preserve (keysOf : String → List String) (lbk : List String)
    (acc : List (String × List String) × List String) (r : Rule)
    (f : String) (h : f ∈ acc.2) : f ∈ (integrityStep keysOf lbk acc r).2 := by
  simp only [integrityStep]
  split
  · exact (mem_setInsert _ _ _).mpr (Or.inr h)
  · exact h

theorem integrityStep_flags_self (keysOf : String → List String) (lbk : List String)
    (acc : List (String × List String) × List String) (r : Rule)
    (h1 : Rule.has_importance_flags r = false) (h2 : r.is_negative = false)
    (h3 : r.is_false_positive = false) :
    r.data_file ∈ (integrityStep keysOf lbk acc r).2 := by
  simp only [integrityStep]
  split
  · exact (mem_setInsert _ _ _).mpr (Or.inl rfl)
  · next h => exact absurd ⟨h1, h2, h3⟩ h

theorem integrity_fold_invariant (keysOf : String → List String) (lbk : List String) :
    ∀ (rules : List Rule) (acc : List (String × List String) × List String),
      (∀ g s k, (g, s) ∈ acc.1 → k ∈ s →
        ∃ s2, (g, s2) ∈ (rules.foldl (integrityStep keysOf lbk) acc).1 ∧ k ∈ s2)
      ∧ (∀ r ∈ rules, ∀ k ∈ ruleUnknownKeys keysOf lbk r,
        ∃ s2, (r.data_file, s2) ∈ (rules.foldl (integrityStep keysOf lbk) acc).1 ∧ k ∈ s2)
      ∧ (∀ f ∈ acc.2, f ∈ (rules.foldl (integrityStep keysOf lbk) acc).2)
      ∧ (∀ r ∈ rules, Rule.has_importance_flags r = false → r.is_negative = false →
          r.is_false_positive = false →
          r.data_file ∈ (rules.foldl (integrityStep keysOf lbk) acc).2) := by
  intro rules
  induction rules with
  | nil => exact fun acc => ⟨fun g s k h hk => ⟨s, h, hk⟩, by simp, fun f h => h, by simp⟩
  | cons r rest ih =>
    intro acc
    refine ⟨?_, ?_, ?_, ?_⟩
    · intro g s k h hk
      obtain ⟨s1, hm1, hk1⟩ := integrityStep_preserve keysOf lbk acc r g s k h hk
      exact (ih (integrityStep keysOf lbk acc r)).1 g s1 k hm1 hk1
    · intro r0 hr0 k hk
      rcases List.mem_cons.mp hr0 with rfl | ht
      · obtain ⟨s1, hm1, hk1⟩ := integrityStep_self keysOf lbk acc r0 k hk
        exact (ih (integrityStep keysOf lbk acc r0)).1 r0.data_file s1 k hm1 hk1
      · exact (ih (integrityStep keysOf lbk acc r)).2.1 r0 ht k hk
    · intro f h
      exact (ih (integrityStep keysOf lbk acc r)).2.2.1 f
        (integrityStep_flags_preserve keysOf lbk acc r f h)
    · intro r0 hr0 h1 h2 h3
      rcases List.mem_cons.mp hr0 with rfl | ht
      · exact (ih (integrityStep keysOf lbk acc r0)).2.2.1 r0.data_file
          (integrityStep_flags_self keysOf lbk acc r0 h1 h2 h3)
      · exact (ih (integrityStep keysOf lbk acc r)).2.2.2 r0 ht h1 h2 h3

theorem integrity_fold_no_unknown (keysOf : String → List String) (lbk : List String)
    (rules : List Rule) (hall : ∀ r ∈ rules, ruleUnknownKeys keysOf lbk r = []) :
    ∀ acc, (rules.foldl (integrityStep keysOf lbk) acc).1 = acc.1 := by
  induction rules with
  | nil => intro acc; rfl
  | cons r rest ih =>
    intro acc
    have hr : ruleUnknownKeys keysOf lbk r = [] := hall r (List.mem_cons_self _ _)
    have hstep : (integrityStep keysOf lbk acc r).1 = acc.1 := by
      unfold integrityStep
      simp [hr]
    have := ih (fun r0 h0 => hall r0 (List.mem_cons_of_mem _ h0)) (integrityStep keysOf lbk acc r)
    rw [List.foldl_cons, this, hstep]

theorem mem_insertSorted (x y : String) (l : List String) :
    y ∈ insertSorted x l ↔ y = x ∨ y ∈ l := by
  induction l with
  | nil => simp [insertSorted]
  | cons a as ih =>
    unfold insertSorted
    split
    · simp
    · rw [List.mem_cons, ih, List.mem_cons]
      tauto

theorem mem_sortStr (x : String) (l : List String) : x ∈ sortStr l ↔ x ∈ l := by
  induction l with
  | nil => simp [sortStr]
  | cons a as ih =>
    unfold sortStr at ih ⊢
    rw [List.foldr_cons, mem_insertSorted, ih, List.mem_cons]

/-- C4: `check_rules_integrity` scans all rules; if at least one rule
references a key absent from the license map it raises the single aggregated
`MissingLicenses` error whose payload names every offending rule data file
together with its unresolved keys; the distinct `MissingFlags` error is
raised (only when no reference is unresolved) naming every rule that has
none of the four importance flags and is neither negative nor a false
positive. -/
theorem C4_check_rules_integrity (keysOf : String → List String) (rules : List Rule)
    (lbk : List String) :
    ((∃ r ∈ rules, ruleUnknownKeys keysOf lbk r ≠ []) →
      ∃ m, check_rules_integrity keysOf rules lbk
            = Except.error (IntegrityError.MissingLicenses m)
        ∧ ∀ r ∈ rules, ∀ k ∈ ruleUnknownKeys keysOf lbk r,
            ∃ ks, (r.data_file, ks) ∈ m ∧ k ∈ ks)
    ∧ ((∀ r ∈ rules, ruleUnknownKeys keysOf lbk r = []) →
      (∃ r ∈ rules, Rule.has_importance_flags r = false ∧ r.is_negative = false
          ∧ r.is_false_positive = false) →
      ∃ fls, check_rules_integrity keysOf rules lbk
            = Except.error (IntegrityError.MissingFlags fls)
        ∧ ∀ r ∈ rules, Rule.has_importance_flags r = false → r.is_negative = false →
            r.is_false_positive = false → r.data_file ∈ fls) := by
  constructor
  · rintro ⟨r0, hr0, hne⟩
    obtain ⟨k0, hk0⟩ := List.exists_mem_of_ne_nil _ hne
    have hinv := integrity_fold_invariant keysOf lbk rules ([], [])
    obtain ⟨s0, hm0, _⟩ := hinv.2.1 r0 hr0 k0 hk0
    have hnonempty : (rules.foldl (integrityStep keysOf lbk) ([], [])).1 ≠ [] :=
      List.ne_nil_of_mem hm0
    refine ⟨(rules.foldl (integrityStep keysOf lbk) ([], [])).1, ?_, ?_⟩
    · unfold check_rules_integrity
      simp [hnonempty]
    · intro r hr k hk
      exact hinv.2.1 r hr k hk
  · intro hall
    rintro ⟨r0, hr0, h1, h2, h3⟩
    have hempty : (rules.foldl (integrityStep keysOf lbk) ([], [])).1 = [] :=
      integrity_fold_no_unknown keysOf lbk rules hall ([], [])
    have hinv := integrity_fold_invariant keysOf lbk rules ([], [])
    have hflag : r0.data_file ∈ (rules.foldl (integrityStep keysOf lbk) ([], [])).2 :=
      hinv.2.2.2 r0 hr0 h1 h2 h3
    have hnonempty : (rules.foldl (integrityStep keysOf lbk) ([], [])).2 ≠ [] :=
      List.ne_nil_of_mem hflag
    refine ⟨sortStr (rules.foldl (integrityStep keysOf lbk) ([], [])).2, ?_, ?_⟩
    · unfold check_rules_integrity
      simp [hempty, hnonempty]
    · intro r hr g1 g2 g3
      exact (mem_sortStr _ _).mpr (hinv.2.2.2 r hr g1 g2 g3)

/-- C4 witness: one rule referencing the unknown key zzz against a map
holding only mit. -/
theorem C4_check_rules_integrity_witness :
    ∃ m, check_rules_integrity (fun e => [e])
          [({ data_file := "r1.yml", license_expression := some "zzz" } : Rule)] ["mit"]
          = Except.error (IntegrityError.MissingLicenses m)
      ∧ ∀ r ∈ [({ data_file := "r1.yml", license_expression := some "zzz" } : Rule)],
          ∀ k ∈ ruleUnknownKeys (fun e => [e]) ["mit"] r,
            ∃ ks, (r.data_file, ks) ∈ m ∧ k ∈ ks :=
  (C4_check_rules_integrity (fun e => [e])
      [({ data_file := "r1.yml", license_expression := some "zzz" } : Rule)] ["mit"]).1
    ⟨{ data_file := "r1.yml", license_expression := some "zzz" },
      List.mem_singleton.mpr rfl, by decide⟩

theorem bget_bput {α β : Type} [DecidableEq α] (b : List (α × List β)) (k k2 : α) (v : β) :
    bget (bput b k v) k2 = if k2 = k then bget b k2 ++ [v] else bget b k2 := by
  induction b with
  | nil =>
    by_cases h : k = k2
    · subst h; simp [bput, bget]
    · have h2 : ¬ k2 = k := fun hc => h hc.symm
      simp [bput, bget, h, h2]
  | cons p rest ih =>
    obtain ⟨a, vs⟩ := p
    by_cases hak : a = k
    · subst hak
      by_cases hak2 : a = k2
      · subst hak2; simp [bput, bget]
      · have h2 : ¬ k2 = a := fun hc => hak2 hc.symm
        simp [bput, bget, hak2, h2]
    · by_cases hak2 : a = k2
      · subst hak2
        have h2 : ¬ a = k := hak
        have h3 : ¬ k = a := fun hc => hak hc.symm
        simp [bput, bget, h2, h3, ih]
      · simp [bput, bget, hak, hak2, ih]

theorem mem_bget_bput {α β : Type} [DecidableEq α] (b : List (α × List β)) (k k2 : α)
    (x v : β) (h : v ∈ bget b k) : v ∈ bget (bput b k2 x) k := by
  rw [bget_bput]
  split
  · exact List.mem_append_left _ h
  · exact h

theorem self_mem_bget_bput {α β : Type} [DecidableEq α] (b : List (α × List β)) (k : α)
    (x : β) : x ∈ bget (bput b k x) k := by
  rw [bget_bput]
  simp

theorem bget_mem {α β : Type} [DecidableEq α] (b : List (α × List β)) (k : α)
    (h : bget b k ≠ []) : (k, bget b k) ∈ b := by
  induction b with
  | nil => exact absurd rfl h
  | cons p rest ih =>
    obtain ⟨a, vs⟩ := p
    by_cases hak : a = k
    · subst hak
      simp only [bget, if_pos rfl]
      simp only [bget, if_pos rfl] at h
      exact List.mem_cons_self _ _
    · simp only [bget, if_neg hak] at h ⊢
      exact List.mem_cons_of_mem _ (ih h)

theorem bget_filter_nonempty {β : Type} [DecidableEq β] (b : List (String × List β))
    (k : String) (v : β) (h : v ∈ bget b k) :
    v ∈ bget (b.filter (fun p => decide (p.2 ≠ []))) k := by
  induction b with
  | nil => exact absurd h (by simp [bget])
  | cons p rest ih =>
    obtain ⟨a, vs⟩ := p
    by_cases hak : a = k
    · subst hak
      simp only [bget, if_pos rfl] at h
      have hvs : vs ≠ [] := List.ne_nil_of_mem h
      simp only [List.filter_cons, decide_eq_true_eq]
      rw [if_pos hvs]
      simpa [bget] using h
    · simp only [bget, if_neg hak] at h
      simp only [List.filter_cons, decide_eq_true_eq]
      split
      · simpa [bget, hak] using ih h
      · exact ih h

theorem mem_bget_foldl_bput {γ : Type}
    (g : List (String × List VMsg) → γ → List (String × List VMsg))
    (hg : ∀ es p k v, v ∈ bget es k → v ∈ bget (g es p) k) (l : List γ) :
    ∀ es k v, v ∈ bget es k → v ∈ bget (l.foldl g es) k := by
  induction l with
  | nil => exact fun es k v h => h
  | cons p rest ih =>
    intro es k v h
    exact ih (g es p) k v (hg es p k v h)

theorem dupTexts_fold_mem :
    ∀ (l : List (List String × List String)) (es : List (String × List VMsg))
      (t : List String) (msgs : List String), (t, msgs) ∈ l → 1 < msgs.length →
      VMsg.duplicateTexts (sortStr msgs) ∈
        bget (l.foldl
          (fun es2 p =>
            if 1 < p.2.length then bput es2 "GLOBAL" (VMsg.duplicateTexts (sortStr p.2))
            else es2) es) "GLOBAL" := by
  intro l
  induction l with
  | nil => intro es t msgs hmem; cases hmem
  | cons p rest ih =>
    intro es t msgs hmem hlen
    rcases List.mem_cons.mp hmem with he | ht
    · rw [List.foldl_cons]
      apply mem_bget_foldl_bput
      · intro es2 p2 k v h
        dsimp only
        split
        · exact mem_bget_bput es2 k "GLOBAL" _ v h
        · exact h
      · rw [← he]
        dsimp only
        rw [if_pos hlen]
        exact self_mem_bget_bput es "GLOBAL" _
    · exact ih _ t msgs ht hlen

theorem validate_fold_by_text (tokenize : String → List String) (fs : String → Option String)
    (nd : Bool) (t : List String) (ht : t ≠ []) :
    ∀ (ls : List (String × License)) (st : VState),
      bget ((ls.foldl (vstep tokenize fs nd) st)).by_text t
        = bget st.by_text t
          ++ (ls.filter (fun kl => decide (tokenize (License.text fs kl.2) = t))).map
              (fun kl => kl.1 ++ ": TEXT") := by
  intro ls
  induction ls with
  | nil => intro st; simp
  | cons kl rest ih =>
    intro st
    rw [List.foldl_cons, ih (vstep tokenize fs nd st kl)]
    have hstep : bget (vstep tokenize fs nd st kl).by_text t
        = bget st.by_text t
          ++ (if tokenize (License.text fs kl.2) = t then [kl.1 ++ ": TEXT"] else []) := by
      simp only [vstep]
      by_cases hq : tokenize (License.text fs kl.2) = []
      · have hne2 : ¬ (tokenize (License.text fs kl.2) = t) := by
          rw [hq]; exact fun hc => ht hc.symm
        have hne3 : ¬ (([] : List String) = t) := fun hc => ht hc.symm
        simp [hq, hne2, hne3, ht]
      · rw [if_neg hq, bget_bput]
        split
        · next hcond =>
          have hqt : tokenize (License.text fs kl.2) = t := hcond.symm
          simp [hqt]
        · next hcond =>
          have hqt : ¬ tokenize (License.text fs kl.2) = t := fun hc => hcond hc.symm
          simp [hqt]
    rw [hstep, List.filter_cons]
    by_cases hc : tokenize (License.text fs kl.2) = t <;>
      simp [hc, List.append_assoc]

theorem bput_fst {α β : Type} [DecidableEq α] (b : List (α × List β)) (k : α) (v : β) :
    (bput b k v).map Prod.fst
      = if k ∈ b.map Prod.fst then b.map Prod.fst else b.map Prod.fst ++ [k] := by
  induction b with
  | nil => simp [bput]
  | cons p rest ih =>
    obtain ⟨a, vs⟩ := p
    by_cases hak : a = k
    · subst hak
      simp [bput]
    · simp only [bput, if_neg hak, List.map_cons, ih]
      have hka : ¬ k = a := fun hc => hak hc.symm
      by_cases hk : k ∈ rest.map Prod.fst
      · rw [if_pos hk, if_pos (List.mem_cons_of_mem _ hk)]
      · rw [if_neg hk, if_neg (by simp [List.mem_cons, hka, hk])]
        simp

theorem bput_fst_nodup {α β : Type} [DecidableEq α] (b : List (α × List β)) (k : α) (v : β)
    (h : (b.map Prod.fst).Nodup) : ((bput b k v).map Prod.fst).Nodup := by
  rw [bput_fst]
  split
  · exact h
  · next hk =>
    rw [List.nodup_append]
    refine ⟨h, List.nodup_singleton k, ?_⟩
    intro x hx hxk
    rw [List.mem_singleton] at hxk
    subst hxk
    exact hk hx

theorem bput_ne_nil {α β : Type} [DecidableEq α] (b : List (α × List β)) (k : α) (v : β)
    (h : ∀ p ∈ b, p.2 ≠ []) : ∀ p ∈ bput b k v, p.2 ≠ [] := by
  induction b with
  | nil =>
    intro p hp
    simp only [bput, List.mem_singleton] at hp
    subst hp
    simp
  | cons q rest ih =>
    obtain ⟨a, vs⟩ := q
    intro p hp
    by_cases hak : a = k
    · subst hak
      simp only [bput, if_pos rfl] at hp
      rcases List.mem_cons.mp hp with rfl | ht
      · simp
      · exact h p (List.mem_cons_of_mem _ ht)
    · simp only [bput, if_neg hak] at hp
      rcases List.mem_cons.mp hp with rfl | ht
      · exact h _ (List.mem_cons_self _ _)
      · exact ih (fun q hq => h q (List.mem_cons_of_mem _ hq)) p ht

theorem entry_eq_bget {α β : Type} [DecidableEq α] (b : List (α × List β)) (k : α)
    (vs : List β) (hnd : (b.map Prod.fst).Nodup) (hm : (k, vs) ∈ b) : bget b k = vs := by
  induction b with
  | nil => cases hm
  | cons q rest ih =>
    obtain ⟨a, ws⟩ := q
    simp only [List.map_cons, List.nodup_cons] at hnd
    rcases List.mem_cons.mp hm with he | ht
    · injection he with h1 h2
      subst h1
      subst h2
      simp [bget]
    · have hk : k ∈ rest.map Prod.fst := List.mem_map_of_mem Prod.fst ht
      have hak : ¬ a = k := fun hc => hnd.1 (by rw [hc]; exact hk)
      simp only [bget, if_neg hak]
      exact ih hnd.2 ht

theorem validate_fold_by_short_name (tokenize : String → List String)
    (fs : String → Option String) (nd : Bool) (sn : Option String) :
    ∀ (ls : List (String × License)) (st : VState),
      bget ((ls.foldl (vstep tokenize fs nd) st)).by_short_name sn
        = bget st.by_short_name sn
          ++ (ls.filter (fun kl => decide (kl.2.short_name = sn))).map (fun kl => kl.1) := by
  intro ls
  induction ls with
  | nil => intro st; simp
  | cons kl rest ih =>
    intro st
    rw [List.foldl_cons, ih (vstep tokenize fs nd st kl)]
    have hstep : bget (vstep tokenize fs nd st kl).by_short_name sn
        = bget st.by_short_name sn ++ (if kl.2.short_name = sn then [kl.1] else []) := by
      simp only [vstep]
      rw [bget_bput]
      split
      · next hcond => simp [hcond.symm]
      · next hcond =>
        have hq : ¬ kl.2.short_name = sn := fun hc => hcond hc.symm
        simp [hq]
    rw [hstep, List.filter_cons]
    by_cases hc : kl.2.short_name = sn <;> simp [hc, List.append_assoc]

theorem validate_fold_by_name (tokenize : String → List String)
    (fs : String → Option String) (nd : Bool) (nm : Option String) :
    ∀ (ls : List (String × License)) (st : VState),
      bget ((ls.foldl (vstep tokenize fs nd) st)).by_name nm
        = bget st.by_name nm
          ++ (ls.filter (fun kl => decide (kl.2.name = nm))).map (fun kl => kl.1) := by
  intro ls
  induction ls with
  | nil => intro st; simp
  | cons kl rest ih =>
    intro st
    rw [List.foldl_cons, ih (vstep tokenize fs nd st kl)]
    have hstep : bget (vstep tokenize fs nd st kl).by_name nm
        = bget st.by_name nm ++ (if kl.2.name = nm then [kl.1] else []) := by
      simp only [vstep]
      rw [bget_bput]
      split
      · next hcond => simp [hcond.symm]
      · next hcond =>
        have hq : ¬ kl.2.name = nm := fun hc => hcond hc.symm
        simp [hq]
    rw [hstep, List.filter_cons]
    by_cases hc : kl.2.name = nm <;> simp [hc, List.append_assoc]

theorem validate_fold_name_state (tokenize : String → List String)
    (fs : String → Option String) (nd : Bool) :
    ∀ (ls : List (String × License)) (st : VState),
      (st.by_short_name.map Prod.fst).Nodup → (∀ p ∈ st.by_short_name, p.2 ≠ []) →
      (st.by_name.map Prod.fst).Nodup → (∀ p ∈ st.by_name, p.2 ≠ []) →
      ((((ls.foldl (vstep tokenize fs nd) st)).by_short_name.map Prod.fst).Nodup
        ∧ (∀ p ∈ ((ls.foldl (vstep tokenize fs nd) st)).by_short_name, p.2 ≠ [])
        ∧ (((ls.foldl (vstep tokenize fs nd) st)).by_name.map Prod.fst).Nodup
        ∧ (∀ p ∈ ((ls.foldl (vstep tokenize fs nd) st)).by_name, p.2 ≠ [])) := by
  intro ls
  induction ls with
  | nil => exact fun st h1 h2 h3 h4 => ⟨h1, h2, h3, h4⟩
  | cons kl rest ih =>
    intro st h1 h2 h3 h4
    rw [List.foldl_cons]
    apply ih
    · simp only [vstep]
      exact bput_fst_nodup _ _ _ h1
    · simp only [vstep]
      exact bput_ne_nil _ _ _ h2
    · simp only [vstep]
      exact bput_fst_nodup _ _ _ h3
    · simp only [vstep]
      exact bput_ne_nil _ _ _ h4

theorem dupNamePass_ok (mk : String → List String → VMsg) :
    ∀ (buckets : List (Option String × List String)),
      (∀ vs, (none, vs) ∈ buckets → vs.length = 1) →
      ∀ es, ∃ es2, dupNamePass mk buckets es = Except.ok es2
        ∧ ∀ k v, v ∈ bget es k → v ∈ bget es2 k := by
  intro buckets
  induction buckets with
  | nil => exact fun _ es => ⟨es, rfl, fun k v h => h⟩
  | cons p rest ih =>
    intro hnone es
    obtain ⟨p1, p2⟩ := p
    have hrest : ∀ vs, (none, vs) ∈ rest → vs.length = 1 :=
      fun vs h => hnone vs (List.mem_cons_of_mem _ h)
    by_cases hlen : p2.length = 1
    · obtain ⟨es2, heq, hpres⟩ := ih hrest es
      exact ⟨es2, by simp [dupNamePass, hlen, heq], hpres⟩
    · cases p1 with
      | none => exact absurd (hnone p2 (List.mem_cons_self _ _)) hlen
      | some nm =>
        obtain ⟨es2, heq, hpres⟩ := ih hrest (bput es "GLOBAL" (mk nm p2))
        refine ⟨es2, ?_, fun k v h => hpres k v (mem_bget_bput es k "GLOBAL" _ v h)⟩
        simp [dupNamePass, hlen, heq]

/-- C9 (amended): `validate` returns the three message maps without raising
provided no two licenses share a missing (None) short name and no two share
a missing name — otherwise the global dedupe pass raises a TypeError by
concatenating None into the message. When it returns and two or more
licenses share an identical NON-EMPTY normalized token sequence, the errors
map's GLOBAL bucket contains a duplicate-texts message listing every
offending license key (tagged `: TEXT`). Licenses whose texts tokenize to
the empty sequence are instead reported per-key as `No license text` info
notes. -/
theorem C9_validate_duplicate_texts (tokenize : String → List String)
    (fs : String → Option String) (nd : Bool) (licenses : List (String × License))
    (t : List String) (ht : t ≠ [])
    (h2 : 2 ≤ (licenses.filter
        (fun kl => decide (tokenize (License.text fs kl.2) = t))).length)
    (hsn : (licenses.filter (fun kl => decide (kl.2.short_name = none))).length ≤ 1)
    (hnm : (licenses.filter (fun kl => decide (kl.2.name = none))).length ≤ 1) :
    ∃ res, License.validate tokenize fs nd licenses = Except.ok res
      ∧ ∃ msgs, VMsg.duplicateTexts msgs ∈ bget res.1 "GLOBAL"
        ∧ ∀ kl ∈ licenses, tokenize (License.text fs kl.2) = t →
            (kl.1 ++ ": TEXT") ∈ msgs := by
  have hstate := validate_fold_name_state tokenize fs nd licenses {}
    (by simp) (by simp) (by simp) (by simp)
  have hbsn : bget (licenses.foldl (vstep tokenize fs nd) {}).by_short_name none
      = (licenses.filter (fun kl => decide (kl.2.short_name = none))).map (fun kl => kl.1) := by
    have h := validate_fold_by_short_name tokenize fs nd none licenses {}
    simpa [bget] using h
  have hbnm : bget (licenses.foldl (vstep tokenize fs nd) {}).by_name none
      = (licenses.filter (fun kl => decide (kl.2.name = none))).map (fun kl => kl.1) := by
    have h := validate_fold_by_name tokenize fs nd none licenses {}
    simpa [bget] using h
  have hnone_sn : ∀ vs,
      (none, vs) ∈ (licenses.foldl (vstep tokenize fs nd) {}).by_short_name →
      vs.length = 1 := by
    intro vs hv
    have he := entry_eq_bget _ none vs hstate.1 hv
    have hvne := hstate.2.1 (none, vs) hv
    rw [hbsn] at he
    have hlen1 : vs.length ≤ 1 := by
      rw [← he, List.length_map]
      exact hsn
    have hlen0 : vs.length ≠ 0 := by
      simpa [List.length_eq_zero] using hvne
    omega
  have hnone_nm : ∀ vs,
      (none, vs) ∈ (licenses.foldl (vstep tokenize fs nd) {}).by_name →
      vs.length = 1 := by
    intro vs hv
    have he := entry_eq_bget _ none vs hstate.2.2.1 hv
    have hvne := hstate.2.2.2 (none, vs) hv
    rw [hbnm] at he
    have hlen1 : vs.length ≤ 1 := by
      rw [← he, List.length_map]
      exact hnm
    have hlen0 : vs.length ≠ 0 := by
      simpa [List.length_eq_zero] using hvne
    omega
  have hbt : bget (licenses.foldl (vstep tokenize fs nd) {}).by_text t
      = (licenses.filter (fun kl => decide (tokenize (License.text fs kl.2) = t))).map
          (fun kl => kl.1 ++ ": TEXT") := by
    have h := validate_fold_by_text tokenize fs nd t ht licenses {}
    simpa [bget] using h
  have hlen : 1 < (bget (licenses.foldl (vstep tokenize fs nd) {}).by_text t).length := by
    rw [hbt, List.length_map]
    omega
  have hne : bget (licenses.foldl (vstep tokenize fs nd) {}).by_text t ≠ [] := by
    intro hcontra
    rw [hcontra] at hlen
    simp at hlen
  have hmem : (t, bget (licenses.foldl (vstep tokenize fs nd) {}).by_text t)
      ∈ (licenses.foldl (vstep tokenize fs nd) {}).by_text := bget_mem _ _ hne
  obtain ⟨errs3, heq3, hpres3⟩ := dupNamePass_ok VMsg.duplicateShortName
    (licenses.foldl (vstep tokenize fs nd) {}).by_short_name hnone_sn
    ((licenses.foldl (vstep tokenize fs nd) {}).by_text.foldl
      (fun (es : List (String × List VMsg)) (p : List String × List String) =>
        if 1 < p.2.length then bput es "GLOBAL" (VMsg.duplicateTexts (sortStr p.2))
        else es)
      ((licenses.foldl (vstep tokenize fs nd) {}).by_spdx_key.foldl
        (fun (es : List (String × List VMsg)) (p : String × List String) =>
          if 1 < p.2.length then bput es "GLOBAL" (VMsg.spdxUsedInMultiple p.1 (sortStr p.2))
          else es)
        (licenses.foldl (vstep tokenize fs nd) {}).errors))
  obtain ⟨errs4, heq4, hpres4⟩ := dupNamePass_ok VMsg.duplicateName
    (licenses.foldl (vstep tokenize fs nd) {}).by_name hnone_nm errs3
  refine ⟨(errs4.filter (fun p => decide (p.2 ≠ [])),
      (licenses.foldl (vstep tokenize fs nd) {}).warnings.filter (fun p => decide (p.2 ≠ [])),
      (licenses.foldl (vstep tokenize fs nd) {}).infos.filter (fun p => decide (p.2 ≠ []))),
    ?_, ?_⟩
  · simp only [License.validate, vpost, heq3, heq4]
  · refine ⟨sortStr (bget (licenses.foldl (vstep tokenize fs nd) {}).by_text t), ?_, ?_⟩
    · apply bget_filter_nonempty
      apply hpres4
      apply hpres3
      exact dupTexts_fold_mem _ _ t _ hmem hlen
    · intro kl hkl hq
      apply (mem_sortStr _ _).mpr
      rw [hbt]
      exact List.mem_map_of_mem _ (List.mem_filter.mpr ⟨hkl, by simp [hq]⟩)

/-- C9 counterexample to the claim as stated, in both parts. First: two
licenses with complete valid metadata whose texts both tokenize to the EMPTY
sequence — identical token sequences, two offenders — yet validate returns an
empty errors map: no GLOBAL duplicate-texts message. Second: validate is not
raise-free — two licenses both missing their short name land in one
None-keyed bucket of size two and the global short-name dedupe raises a
TypeError concatenating None into the message (models.py line 406). -/
theorem C9_validate_counterexample :
    (([("a", ({ key := "a", short_name := some "A", name := some "LicA",
                category := some "Permissive", owner := some "OwnA",
                text_file := "a.LICENSE" } : License)),
       ("b", ({ key := "b", short_name := some "B", name := some "LicB",
                category := some "Permissive", owner := some "OwnB",
                text_file := "b.LICENSE" } : License))].filter
        (fun kl => decide ((fun _ : String => ([] : List String))
            (License.text (fun _ => none) kl.2) = ([] : List String)))).length = 2)
    ∧ (License.validate (fun _ => ([] : List String)) (fun _ => none) false
        [("a", ({ key := "a", short_name := some "A", name := some "LicA",
                  category := some "Permissive", owner := some "OwnA",
                  text_file := "a.LICENSE" } : License)),
         ("b", ({ key := "b", short_name := some "B", name := some "LicB",
                  category := some "Permissive", owner := some "OwnB",
                  text_file := "b.LICENSE" } : License))]
        = Except.ok ([], [],
            [("a", [VMsg.noLicenseText]), ("b", [VMsg.noLicenseText])]))
    ∧ (License.validate (fun _ => ([] : List String)) (fun _ => none) false
        [("c", ({ key := "c", name := some "LicC", category := some "Permissive",
                  owner := some "OwnC", text_file := "c.LICENSE" } : License)),
         ("d", ({ key := "d", name := some "LicD", category := some "Permissive",
                  owner := some "OwnD", text_file := "d.LICENSE" } : License))]
        = Except.error "TypeError: cannot concatenate str and NoneType objects") :=
  ⟨rfl, rfl, rfl⟩

/-- C9 witness: two licenses with the same one-token text and present
short names and names; the amended theorem applied there. -/
theorem C9_validate_duplicate_texts_witness :
    ∃ res, License.validate (fun s => if s = "" then [] else ["x"]) (fun _ => some "T")
          false
          [("a", ({ key := "a", short_name := some "A", name := some "LicA",
                    category := some "Permissive", owner := some "OwnA",
                    text_file := "a.LICENSE" } : License)),
           ("b", ({ key := "b", short_name := some "B", name := some "LicB",
                    category := some "Permissive", owner := some "OwnB",
                    text_file := "b.LICENSE" } : License))]
        = Except.ok res
      ∧ ∃ msgs, VMsg.duplicateTexts msgs ∈ bget res.1 "GLOBAL"
        ∧ ∀ kl ∈ [("a", ({ key := "a", short_name := some "A", name := some "LicA",
                           category := some "Permissive", owner := some "OwnA",
                           text_file := "a.LICENSE" } : License)),
                 ("b", ({ key := "b", short_name := some "B", name := some "LicB",
                          category := some "Permissive", owner := some "OwnB",
                          text_file := "b.LICENSE" } : License))],
          (fun s => if s = "" then [] else ["x"]) (License.text (fun _ => some "T") kl.2)
              = ["x"] →
          (kl.1 ++ ": TEXT") ∈ msgs :=
  C9_validate_duplicate_texts (fun s => if s = "" then [] else ["x"]) (fun _ => some "T")
    false
    [("a", { key := "a", short_name := some "A", name := some "LicA",
             category := some "Permissive", owner := some "OwnA",
             text_file := "a.LICENSE" }),
     ("b", { key := "b", short_name := some "B", name := some "LicB",
             category := some "Permissive", owner := some "OwnB",
             text_file := "b.LICENSE" })]
    ["x"] (by decide) (by decide) (by decide) (by decide)
